import Mathlib

/-!
Verification of the EROFS VLE (variable-length-extent) compressed read path,
a shallow embedding of fs/erofs/unzip_vle.c.

Conventions of the embedding:
* machine integers are modelled as Nat; where the C code can wrap (u32
  decrement and subtraction, u64 subtraction) the wraparound is made explicit
  with u32_sub / u64_sub below;
* the on-disk cluster-index table is modelled as a total function from the
  logical cluster number to the decoded record (the metadata-page fetching
  in the source is the abstract metadata-block accessor of the design, out
  of scope here; a fetched record is exactly the 8-byte on-disk structure);
* the genuinely recursive backward walk of vle_get_logical_extent_head is
  embedded with an explicit fuel argument, so that the termination of the
  source recursion becomes a provable statement (enough fuel always exists)
  rather than an assumption;
* in-out pointer parameters become explicit state threading, and the flag
  word m_flags becomes a record of its two relevant bits;
* the Huawei compatibility cluster type (CONFIG_EROFS_FS_HUAWEI_EXTENSION)
  and the managed compressed-page cache (EROFS_FS_HAS_MANAGED_CACHE) are
  compiled in, as the specification describes both as part of the core.
-/

/-- Linux error number EIO; the driver returns the negated value. -/
def eio : Int := 5

/-- Linux error number EBUSY; the driver returns the negated value. -/
def ebusy : Int := 16

/-- Linux error number ENOMEM; the driver returns the negated value. -/
def enomem : Int := 12

/-- Linux kernel-internal error number ENOTSUPP. -/
def enotsupp : Int := 524

/-- PAGE_SIZE of the modelled configuration (4 KiB pages). -/
def pageSize : Nat := 4096

/-- Subtraction of u32 values with the wraparound of C unsigned arithmetic
(both arguments are reduced mod 2^32 by their C types). -/
def u32_sub (a b : Nat) : Nat :=
  (a % 4294967296 + 4294967296 - b % 4294967296) % 4294967296

/-- Subtraction of u64 values with the wraparound of C unsigned arithmetic. -/
def u64_sub (a b : Nat) : Nat :=
  (a % 18446744073709551616 + 18446744073709551616 - b % 18446744073709551616) %
    18446744073709551616

/-- On-disk record struct z_erofs_vle_decompressed_index, with each field
already decoded from little endian: di_advise and di_clusterofs are the two
u16 words, and di_u is the raw u32 union (delta[0] is its low 16 bits,
delta[1] its high 16 bits, blkaddr the whole word). -/
structure z_erofs_vle_decompressed_index where
  di_advise : Nat
  di_clusterofs : Nat
  di_u : Nat
deriving DecidableEq, Repr

/-- Modelled from the spec (the on-disk format header is not under src/):
the cluster type occupies the two low bits of di_advise
(Z_EROFS_VLE_DI_CLUSTER_TYPE_BIT = 0, Z_EROFS_VLE_DI_CLUSTER_TYPE_BITS = 2);
type value of a plain (uncompressed) cluster. -/
def Z_EROFS_VLE_CLUSTER_TYPE_PLAIN : Nat := 0

/-- Type value of a head cluster (starts a physical cluster). -/
def Z_EROFS_VLE_CLUSTER_TYPE_HEAD : Nat := 1

/-- Type value of a non-head (continuation) cluster. -/
def Z_EROFS_VLE_CLUSTER_TYPE_NONHEAD : Nat := 2

/-- Type value of the Huawei compatibility variant. -/
def Z_EROFS_VLE_CLUSTER_TYPE_HUAWEI_COMPAT : Nat := 3

/-- vle_cluster_type(di): (le16_to_cpu(di_advise) >> 0) & ((1 << 2) - 1). -/
def vle_cluster_type (di : z_erofs_vle_decompressed_index) : Nat :=
  di.di_advise % 4

/-- vle_huawei_compat_previous_clusters(clustersize, di):
(di_clusterofs / clustersize) | (((di_advise >> 4) & 15) << 4). -/
def vle_huawei_compat_previous_clusters (clustersize : Nat)
    (di : z_erofs_vle_decompressed_index) : Nat :=
  Nat.lor (di.di_clusterofs / clustersize) (((di.di_advise >>> 4) % 16) <<< 4)

/-- vle_decompressed_index_clusterofs: decode the logical cluster offset of a
record; the default arm of the source switch is a corrupt-format error. -/
def vle_decompressed_index_clusterofs (clustersize : Nat)
    (di : z_erofs_vle_decompressed_index) : Except Int Nat :=
  if vle_cluster_type di = Z_EROFS_VLE_CLUSTER_TYPE_NONHEAD then
    Except.ok clustersize
  else if vle_cluster_type di = Z_EROFS_VLE_CLUSTER_TYPE_HUAWEI_COMPAT then
    (if vle_huawei_compat_previous_clusters clustersize di ≠ 0 then
      Except.ok clustersize
    else
      -- fallthrough to the PLAIN/HEAD arm
      Except.ok di.di_clusterofs)
  else if vle_cluster_type di = Z_EROFS_VLE_CLUSTER_TYPE_PLAIN ∨
          vle_cluster_type di = Z_EROFS_VLE_CLUSTER_TYPE_HEAD then
    Except.ok di.di_clusterofs
  else
    Except.error (-eio)

deriving instance DecidableEq for Except

/-- The two bits of erofs map flags the resolver reads and writes:
EROFS_MAP_MAPPED and EROFS_MAP_ZIPPED. -/
structure MapFlags where
  mapped : Bool
  zipped : Bool
deriving DecidableEq, Repr

/-- struct erofs_map_blocks, restricted to the fields the resolver touches
(the mpage metadata-page cache handle is part of the abstracted
metadata-block accessor). -/
structure erofs_map_blocks where
  m_la : Nat
  m_llen : Nat
  m_pa : Nat
  m_plen : Nat
  m_flags : MapFlags
deriving DecidableEq, Repr

/-- Result of the backward head-resolution walk: resolved (ofs, pblk) output
parameters together with the in-out flag word, an error return with the flag
word as left by the walk, or exhaustion of the explicit recursion fuel
(the artifact of the embedding that makes termination provable). -/
inductive HeadRes where
  | ok (ofs : Nat) (pblk : Nat) (flags : MapFlags)
  | err (e : Int) (flags : MapFlags)
  | outOfFuel
deriving DecidableEq, Repr

/-- vle_get_logical_extent_head: walk backward from a logical cluster number
to the head record of its physical cluster.  A NONHEAD record recurses at
lcn - delta[0] after validating 0 < delta[0] <= lcn; PLAIN toggles the
ZIPPED flag and falls through the compatibility arm (which subtracts the
packed previous-cluster count from lcn with u32 wraparound) into HEAD, which
produces ofs = (lcn << clusterbits) + (di_clusterofs & (clustersize - 1))
and pblk = blkaddr.  The metadata-page refresh of the source only re-fetches
the record and is absorbed by the table abstraction. -/
def vle_get_logical_extent_head (tbl : Nat → z_erofs_vle_decompressed_index)
    (clusterbits : Nat) : Nat → Nat → MapFlags → HeadRes
  | 0, _, _ => HeadRes.outOfFuel
  | fuel + 1, lcn, flags =>
    if vle_cluster_type (tbl lcn) = Z_EROFS_VLE_CLUSTER_TYPE_NONHEAD then
      (if (tbl lcn).di_u % 65536 = 0 ∨ lcn < (tbl lcn).di_u % 65536 then
        HeadRes.err (-eio) flags
      else
        vle_get_logical_extent_head tbl clusterbits fuel
          (lcn - (tbl lcn).di_u % 65536) flags)
    else if vle_cluster_type (tbl lcn) = Z_EROFS_VLE_CLUSTER_TYPE_PLAIN ∨
            vle_cluster_type (tbl lcn) = Z_EROFS_VLE_CLUSTER_TYPE_HUAWEI_COMPAT ∨
            vle_cluster_type (tbl lcn) = Z_EROFS_VLE_CLUSTER_TYPE_HEAD then
      HeadRes.ok
        ((if vle_cluster_type (tbl lcn) = Z_EROFS_VLE_CLUSTER_TYPE_HEAD then lcn
          else u32_sub lcn
            (vle_huawei_compat_previous_clusters (2 ^ clusterbits) (tbl lcn)))
            * 2 ^ clusterbits
          + (tbl lcn).di_clusterofs % 2 ^ clusterbits)
        (tbl lcn).di_u
        (if vle_cluster_type (tbl lcn) = Z_EROFS_VLE_CLUSTER_TYPE_PLAIN then
          { flags with zipped := !flags.zipped }
        else flags)
    else
      HeadRes.err (-eio) flags

/-- The nonhead label of z_erofs_map_blocks_iter: run the backward walk at
lcn1 and package the mapping with extent end end1 (m_llen = end - ofs in u64
arithmetic, m_pa = blknr_to_addr(pblk), m_plen = clustersize, MAPPED set).
A walk error returns with the map as the walk left it (only m_flags may have
been written through the in-out pointer). -/
def z_erofs_map_blocks_iter_nonhead (fuel : Nat)
    (tbl : Nat → z_erofs_vle_decompressed_index) (clusterbits : Nat)
    (map : erofs_map_blocks) (lcn1 end1 : Nat) (flags1 : MapFlags) :
    Option (Int × erofs_map_blocks) :=
  match vle_get_logical_extent_head tbl clusterbits fuel lcn1 flags1 with
  | HeadRes.outOfFuel => none
  | HeadRes.err e f => some (e, { map with m_flags := f })
  | HeadRes.ok o p f =>
    some (0, { map with
      m_la := o,
      m_llen := u64_sub end1 o,
      m_pa := p * pageSize,
      m_plen := 2 ^ clusterbits,
      m_flags := { f with mapped := true } })

/-- The HEAD arm of the z_erofs_map_blocks_iter switch (also reached by
fallthrough from PLAIN and the compatibility arm): exact hit on the record
clusterofs, a hit inside the cluster, or the backward-walk case, which
requires lcn >= 1 and decrements lcn for the walk. -/
def z_erofs_map_blocks_iter_headtail (fuel : Nat)
    (tbl : Nat → z_erofs_vle_decompressed_index) (clusterbits : Nat)
    (map : erofs_map_blocks) (lcn ofs ofs_rem end0 logical_cluster_ofs : Nat)
    (di : z_erofs_vle_decompressed_index) (flags1 : MapFlags) :
    Option (Int × erofs_map_blocks) :=
  if ofs_rem = logical_cluster_ofs then
    -- exact_hitted: m_la keeps its entry value (equal to ofs on this path)
    some (0, { map with
      m_llen := u64_sub end0 ofs,
      m_pa := di.di_u * pageSize,
      m_plen := 2 ^ clusterbits,
      m_flags := { flags1 with mapped := true } })
  else if logical_cluster_ofs < ofs_rem then
    some (0, { map with
      m_la := Nat.lor (lcn * 2 ^ clusterbits) logical_cluster_ofs,
      m_llen := u64_sub end0 (Nat.lor (lcn * 2 ^ clusterbits) logical_cluster_ofs),
      m_pa := di.di_u * pageSize,
      m_plen := 2 ^ clusterbits,
      m_flags := { flags1 with mapped := true } })
  else if lcn = 0 then
    -- a backward walk from logical cluster 0 is corrupt on-disk data
    some (-eio, { map with m_flags := flags1 })
  else
    z_erofs_map_blocks_iter_nonhead fuel tbl clusterbits map (lcn - 1)
      (Nat.lor (lcn * 2 ^ clusterbits) logical_cluster_ofs) flags1

/-- The Huawei compatibility arm of the switch (also reached by fallthrough
from PLAIN): a nonzero packed previous-cluster count redirects to the
nonhead label with end = (lcn + 1) * clustersize and lcn decremented with
u32 wraparound; otherwise fall through to the HEAD arm. -/
def z_erofs_map_blocks_iter_compattail (fuel : Nat)
    (tbl : Nat → z_erofs_vle_decompressed_index) (clusterbits : Nat)
    (map : erofs_map_blocks) (lcn ofs ofs_rem end0 logical_cluster_ofs : Nat)
    (di : z_erofs_vle_decompressed_index) (flags1 : MapFlags) :
    Option (Int × erofs_map_blocks) :=
  if vle_huawei_compat_previous_clusters (2 ^ clusterbits) di ≠ 0 then
    z_erofs_map_blocks_iter_nonhead fuel tbl clusterbits map (u32_sub lcn 1)
      ((lcn + 1) * 2 ^ clusterbits) flags1
  else
    z_erofs_map_blocks_iter_headtail fuel tbl clusterbits map lcn ofs ofs_rem
      end0 logical_cluster_ofs di flags1

/-- z_erofs_map_blocks_iter: resolve the logical offset m_la + m_llen.
A request at or beyond the inode size yields an unmapped mapping; otherwise
the record at lcn = ((m_la + m_llen) >> clusterbits) (truncated to u32) is
decoded; in walking mode (m_llen already nonzero) the length is advanced in
place by the decoded cluster offset; in initial mode the ZIPPED flag is
preset and the switch on the cluster type runs.  Since clustersize is the
power of two 1 << clusterbits, ofs & (clustersize - 1) is written as
ofs % 2 ^ clusterbits and ofs >> clusterbits as ofs / 2 ^ clusterbits.
The result is none exactly when the embedded walk runs out of fuel. -/
def z_erofs_map_blocks_iter (fuel : Nat)
    (tbl : Nat → z_erofs_vle_decompressed_index) (clusterbits : Nat)
    (i_size : Nat) (map : erofs_map_blocks) : Option (Int × erofs_map_blocks) :=
  if i_size ≤ map.m_la then
    some (0, { map with
      m_llen := map.m_la + 1 - i_size,
      m_la := i_size,
      m_flags := MapFlags.mk false false })
  else
    match vle_decompressed_index_clusterofs (2 ^ clusterbits)
        (tbl (((map.m_la + map.m_llen) / 2 ^ clusterbits) % 4294967296)) with
    | Except.error e => some (e, map)
    | Except.ok logical_cluster_ofs =>
      if map.m_llen ≠ 0 then
        -- walking mode: the map has already been initialized
        some (0, { map with m_llen := map.m_llen + logical_cluster_ofs })
      else
        (if vle_cluster_type
            (tbl (((map.m_la + map.m_llen) / 2 ^ clusterbits) % 4294967296)) =
            Z_EROFS_VLE_CLUSTER_TYPE_PLAIN then
          z_erofs_map_blocks_iter_compattail fuel tbl clusterbits map
            (((map.m_la + map.m_llen) / 2 ^ clusterbits) % 4294967296)
            (map.m_la + map.m_llen)
            ((map.m_la + map.m_llen) % 2 ^ clusterbits)
            ((((map.m_la + map.m_llen) / 2 ^ clusterbits) % 4294967296 + 1)
              * 2 ^ clusterbits)
            logical_cluster_ofs
            (tbl (((map.m_la + map.m_llen) / 2 ^ clusterbits) % 4294967296))
            -- m_flags |= ZIPPED, then the PLAIN arm toggles the bit back off
            -- when ofs_rem >= logical_cluster_ofs
            (if logical_cluster_ofs ≤ (map.m_la + map.m_llen) % 2 ^ clusterbits then
              { map.m_flags with zipped := false }
            else
              { map.m_flags with zipped := true })
        else if vle_cluster_type
            (tbl (((map.m_la + map.m_llen) / 2 ^ clusterbits) % 4294967296)) =
            Z_EROFS_VLE_CLUSTER_TYPE_HUAWEI_COMPAT then
          z_erofs_map_blocks_iter_compattail fuel tbl clusterbits map
            (((map.m_la + map.m_llen) / 2 ^ clusterbits) % 4294967296)
            (map.m_la + map.m_llen)
            ((map.m_la + map.m_llen) % 2 ^ clusterbits)
            ((((map.m_la + map.m_llen) / 2 ^ clusterbits) % 4294967296 + 1)
              * 2 ^ clusterbits)
            logical_cluster_ofs
            (tbl (((map.m_la + map.m_llen) / 2 ^ clusterbits) % 4294967296))
            { map.m_flags with zipped := true }
        else if vle_cluster_type
            (tbl (((map.m_la + map.m_llen) / 2 ^ clusterbits) % 4294967296)) =
            Z_EROFS_VLE_CLUSTER_TYPE_HEAD then
          z_erofs_map_blocks_iter_headtail fuel tbl clusterbits map
            (((map.m_la + map.m_llen) / 2 ^ clusterbits) % 4294967296)
            (map.m_la + map.m_llen)
            ((map.m_la + map.m_llen) % 2 ^ clusterbits)
            ((((map.m_la + map.m_llen) / 2 ^ clusterbits) % 4294967296 + 1)
              * 2 ^ clusterbits)
            logical_cluster_ofs
            (tbl (((map.m_la + map.m_llen) / 2 ^ clusterbits) % 4294967296))
            { map.m_flags with zipped := true }
        else if vle_cluster_type
            (tbl (((map.m_la + map.m_llen) / 2 ^ clusterbits) % 4294967296)) =
            Z_EROFS_VLE_CLUSTER_TYPE_NONHEAD then
          z_erofs_map_blocks_iter_nonhead fuel tbl clusterbits map
            (((map.m_la + map.m_llen) / 2 ^ clusterbits) % 4294967296)
            ((((map.m_la + map.m_llen) / 2 ^ clusterbits) % 4294967296 + 1)
              * 2 ^ clusterbits)
            { map.m_flags with zipped := true }
        else
          some (-eio, { map with m_flags := { map.m_flags with zipped := true } }))

/-! ### Generic facts about the backward walk -/

/-- The walk result does not depend on the fuel once the fuel exceeds the
starting logical cluster number: every NONHEAD step strictly decreases lcn. -/
theorem vle_get_logical_extent_head_fuel_congr
    (tbl : Nat → z_erofs_vle_decompressed_index) (clusterbits : Nat) :
    ∀ fuel fuel' lcn flags, lcn < fuel → lcn < fuel' →
      vle_get_logical_extent_head tbl clusterbits fuel lcn flags =
        vle_get_logical_extent_head tbl clusterbits fuel' lcn flags := by
  intro fuel
  induction fuel with
  | zero =>
    intro fuel' lcn flags h h'
    exact absurd h (Nat.not_lt_zero lcn)
  | succ f ih =>
    intro fuel' lcn flags h h'
    match fuel', h' with
    | Nat.succ f', h' =>
      simp only [vle_get_logical_extent_head]
      split_ifs with h1 h2
      · rfl
      · rcases not_or.mp h2 with ⟨hd0, hdl⟩
        rw [Nat.not_lt] at hdl
        exact ih f' _ flags (by omega) (by omega)
      all_goals rfl

/-- With fuel exceeding the starting logical cluster number the walk never
exhausts its fuel: the embedded recursion terminates. -/
theorem vle_get_logical_extent_head_terminates
    (tbl : Nat → z_erofs_vle_decompressed_index) (clusterbits : Nat) :
    ∀ fuel lcn flags, lcn < fuel →
      vle_get_logical_extent_head tbl clusterbits fuel lcn flags ≠
        HeadRes.outOfFuel := by
  intro fuel
  induction fuel with
  | zero =>
    intro lcn flags h
    exact absurd h (Nat.not_lt_zero lcn)
  | succ f ih =>
    intro lcn flags h
    simp only [vle_get_logical_extent_head]
    split_ifs with h1 h2
    · simp
    · rcases not_or.mp h2 with ⟨hd0, hdl⟩
      rw [Nat.not_lt] at hdl
      exact ih _ flags (by omega)
    all_goals simp

/-- The walk started at lcn only ever reads records at indices at most lcn:
two tables agreeing up to lcn give identical walks. -/
theorem vle_get_logical_extent_head_tbl_congr (clusterbits : Nat) :
    ∀ fuel (tbl tbl' : Nat → z_erofs_vle_decompressed_index) lcn flags,
      (∀ j, j ≤ lcn → tbl j = tbl' j) →
      vle_get_logical_extent_head tbl clusterbits fuel lcn flags =
        vle_get_logical_extent_head tbl' clusterbits fuel lcn flags := by
  intro fuel
  induction fuel with
  | zero => intro tbl tbl' lcn flags h; rfl
  | succ f ih =>
    intro tbl tbl' lcn flags h
    have h0 : tbl lcn = tbl' lcn := h lcn le_rfl
    simp only [vle_get_logical_extent_head, h0]
    split_ifs with h1 h2
    · rfl
    · exact ih tbl tbl' _ flags (fun j hj => h j (le_trans hj (Nat.sub_le _ _)))
    all_goals rfl

/-- Claim C1: for every on-disk cluster-index table the backward
head-resolution walk of vle_get_logical_extent_head terminates for every
starting logical cluster number, because each NONHEAD step strictly
decreases the logical cluster number (fuel lcn + 1 is always enough, and
any larger fuel computes the same result); a chain that violates the
delta invariant stops with the FormatCorruption error (so the fuel is
never exhausted there either). -/
theorem claim_C1_backward_walk_terminates
    (tbl : Nat → z_erofs_vle_decompressed_index) (clusterbits fuel lcn : Nat)
    (flags : MapFlags) (h : lcn < fuel) :
    vle_get_logical_extent_head tbl clusterbits fuel lcn flags =
      vle_get_logical_extent_head tbl clusterbits (lcn + 1) lcn flags ∧
    vle_get_logical_extent_head tbl clusterbits fuel lcn flags ≠
      HeadRes.outOfFuel :=
  ⟨vle_get_logical_extent_head_fuel_congr tbl clusterbits fuel (lcn + 1) lcn
      flags h (Nat.lt_succ_self lcn),
    vle_get_logical_extent_head_terminates tbl clusterbits fuel lcn flags h⟩

/-- Table for the C1 witness: a NONHEAD record at lcn 3 with delta 2
pointing back at a HEAD record at lcn 1. -/
def c1tbl : Nat → z_erofs_vle_decompressed_index := fun n =>
  if n = 3 then ⟨2, 0, 2⟩ else ⟨1, 100, 9⟩

theorem claim_C1_witness :
    3 < 5 ∧
    (vle_get_logical_extent_head c1tbl 12 5 3 (MapFlags.mk false false) =
        vle_get_logical_extent_head c1tbl 12 4 3 (MapFlags.mk false false) ∧
      vle_get_logical_extent_head c1tbl 12 5 3 (MapFlags.mk false false) ≠
        HeadRes.outOfFuel) :=
  ⟨by decide,
    claim_C1_backward_walk_terminates c1tbl 12 5 3 (MapFlags.mk false false)
      (by decide)⟩

/-- Claim C2: a NONHEAD record whose delta is zero or exceeds its own
logical cluster number makes resolution fail with the FormatCorruption
error -EIO and no mapping: (1) at walk level, the record examined at lcn is
rejected before any recursion; (2) in particular a NONHEAD record at
logical cluster number 0 is always rejected; (3) at the resolver entry, an
initial call that decodes such a NONHEAD record returns -EIO with the map
untouched except for the ZIPPED preset bit (MAPPED is not set, no mapping
fields are produced). -/
theorem claim_C2_nonhead_invalid_delta_rejected :
    (∀ (tbl : Nat → z_erofs_vle_decompressed_index)
        (clusterbits fuel lcn : Nat) (flags : MapFlags),
      vle_cluster_type (tbl lcn) = Z_EROFS_VLE_CLUSTER_TYPE_NONHEAD →
      ((tbl lcn).di_u % 65536 = 0 ∨ lcn < (tbl lcn).di_u % 65536) →
      vle_get_logical_extent_head tbl clusterbits (fuel + 1) lcn flags =
        HeadRes.err (-eio) flags) ∧
    (∀ (tbl : Nat → z_erofs_vle_decompressed_index)
        (clusterbits fuel : Nat) (flags : MapFlags),
      vle_cluster_type (tbl 0) = Z_EROFS_VLE_CLUSTER_TYPE_NONHEAD →
      vle_get_logical_extent_head tbl clusterbits (fuel + 1) 0 flags =
        HeadRes.err (-eio) flags) ∧
    (∀ (fuel : Nat) (tbl : Nat → z_erofs_vle_decompressed_index)
        (clusterbits i_size : Nat) (map : erofs_map_blocks),
      map.m_llen = 0 → map.m_la < i_size →
      vle_cluster_type
          (tbl (((map.m_la + map.m_llen) / 2 ^ clusterbits) % 4294967296)) =
        Z_EROFS_VLE_CLUSTER_TYPE_NONHEAD →
      ((tbl (((map.m_la + map.m_llen) / 2 ^ clusterbits) % 4294967296)).di_u
          % 65536 = 0 ∨
        ((map.m_la + map.m_llen) / 2 ^ clusterbits) % 4294967296 <
          (tbl (((map.m_la + map.m_llen) / 2 ^ clusterbits)
            % 4294967296)).di_u % 65536) →
      z_erofs_map_blocks_iter (fuel + 1) tbl clusterbits i_size map =
        some (-eio, { map with
          m_flags := { map.m_flags with zipped := true } })) := by
  have key : ∀ (tbl : Nat → z_erofs_vle_decompressed_index)
      (clusterbits fuel lcn : Nat) (flags : MapFlags),
      vle_cluster_type (tbl lcn) = Z_EROFS_VLE_CLUSTER_TYPE_NONHEAD →
      ((tbl lcn).di_u % 65536 = 0 ∨ lcn < (tbl lcn).di_u % 65536) →
      vle_get_logical_extent_head tbl clusterbits (fuel + 1) lcn flags =
        HeadRes.err (-eio) flags := by
    intro tbl clusterbits fuel lcn flags ht hd
    simp only [vle_get_logical_extent_head, if_pos ht, if_pos hd]
  refine ⟨key, ?_, ?_⟩
  · intro tbl clusterbits fuel flags ht
    refine key tbl clusterbits fuel 0 flags ht ?_
    rcases Nat.eq_zero_or_pos ((tbl 0).di_u % 65536) with h | h
    · exact Or.inl h
    · exact Or.inr h
  · intro fuel tbl clusterbits i_size map h0 hsz ht hd
    rw [h0, Nat.add_zero] at ht hd
    have hdec : vle_decompressed_index_clusterofs (2 ^ clusterbits)
        (tbl ((map.m_la / 2 ^ clusterbits) % 4294967296)) =
        Except.ok (2 ^ clusterbits) := by
      simp only [vle_decompressed_index_clusterofs, if_pos ht]
    have hwalk := key tbl clusterbits fuel
      ((map.m_la / 2 ^ clusterbits) % 4294967296)
      { map.m_flags with zipped := true } ht hd
    simp [z_erofs_map_blocks_iter, Nat.not_le.mpr hsz, h0, hdec, ht,
      z_erofs_map_blocks_iter_nonhead, hwalk,
      Z_EROFS_VLE_CLUSTER_TYPE_NONHEAD, Z_EROFS_VLE_CLUSTER_TYPE_PLAIN,
      Z_EROFS_VLE_CLUSTER_TYPE_HEAD, Z_EROFS_VLE_CLUSTER_TYPE_HUAWEI_COMPAT]

/-- Table for the C2 witness: NONHEAD records with delta 0 everywhere. -/
def c2tbl : Nat → z_erofs_vle_decompressed_index := fun _ => ⟨2, 0, 0⟩

theorem claim_C2_witness :
    (vle_cluster_type (c2tbl 7) = Z_EROFS_VLE_CLUSTER_TYPE_NONHEAD ∧
      ((c2tbl 7).di_u % 65536 = 0 ∨ 7 < (c2tbl 7).di_u % 65536) ∧
      vle_get_logical_extent_head c2tbl 12 4 7 (MapFlags.mk false false) =
        HeadRes.err (-eio) (MapFlags.mk false false)) ∧
    (vle_cluster_type (c2tbl 0) = Z_EROFS_VLE_CLUSTER_TYPE_NONHEAD ∧
      vle_get_logical_extent_head c2tbl 12 1 0 (MapFlags.mk true true) =
        HeadRes.err (-eio) (MapFlags.mk true true)) ∧
    z_erofs_map_blocks_iter 3 c2tbl 12 100000
        (erofs_map_blocks.mk 0 0 0 0 (MapFlags.mk false false)) =
      some (-eio, erofs_map_blocks.mk 0 0 0 0 (MapFlags.mk false true)) :=
  ⟨⟨by decide, by decide,
      claim_C2_nonhead_invalid_delta_rejected.1 c2tbl 12 3 7
        (MapFlags.mk false false) (by decide) (by decide)⟩,
    ⟨by decide,
      claim_C2_nonhead_invalid_delta_rejected.2.1 c2tbl 12 0
        (MapFlags.mk true true) (by decide)⟩,
    claim_C2_nonhead_invalid_delta_rejected.2.2 2 c2tbl 12 100000
      (erofs_map_blocks.mk 0 0 0 0 (MapFlags.mk false false))
      (by decide) (by decide) (by decide) (by decide)⟩

/-- Claim C3: an initial resolve call whose requested offset is at or
beyond the inode size succeeds (err 0), leaves the mapping unmapped
(m_flags cleared, so MAPPED is not set), sets the logical offset to the
file size and the logical length to requested_offset + 1 - file_size. -/
theorem claim_C3_eof_read_unmapped (fuel : Nat)
    (tbl : Nat → z_erofs_vle_decompressed_index) (clusterbits i_size : Nat)
    (map : erofs_map_blocks) (_hinit : map.m_llen = 0)
    (h : i_size ≤ map.m_la) :
    z_erofs_map_blocks_iter fuel tbl clusterbits i_size map =
      some (0, { map with
        m_la := i_size,
        m_llen := map.m_la + 1 - i_size,
        m_flags := MapFlags.mk false false }) := by
  simp only [z_erofs_map_blocks_iter, if_pos h]

theorem claim_C3_witness :
    (150 : Nat) ≥ 100 ∧
    z_erofs_map_blocks_iter 1 c1tbl 12 100
        (erofs_map_blocks.mk 150 0 7 8 (MapFlags.mk true true)) =
      some (0, erofs_map_blocks.mk 100 51 7 8 (MapFlags.mk false false)) :=
  ⟨by decide,
    claim_C3_eof_read_unmapped 1 c1tbl 12 100
      (erofs_map_blocks.mk 150 0 7 8 (MapFlags.mk true true))
      (by decide) (by decide)⟩

/-- Table for the C9 counterexample (its content is never read: the
end-of-file branch returns before decoding any record). -/
def c9tbl : Nat → z_erofs_vle_decompressed_index := fun _ => ⟨0, 0, 0⟩

/-- Claim C9 counterexample: a resolve call entered in walking mode
(m_llen = 5, nonzero) whose logical offset sits at the inode size takes the
end-of-file branch instead: the logical length is rewritten to
m_la + 1 - i_size = 1 (decreased, not increased by a decoded cluster
offset) and m_flags is cleared (changed), refuting the claim as stated. -/
theorem claim_C9_counterexample :
    (5 : Nat) ≠ 0 ∧
    z_erofs_map_blocks_iter 1 c9tbl 12 100
        (erofs_map_blocks.mk 100 5 999 4096 (MapFlags.mk true true)) =
      some (0, erofs_map_blocks.mk 100 1 999 4096 (MapFlags.mk false false)) ∧
    (1 : Nat) < 5 ∧
    MapFlags.mk false false ≠ MapFlags.mk true true := by
  refine ⟨by decide, ?_, by decide, by decide⟩
  decide

/-- Claim C9 (amended): every resolve call entered in walking mode
(logical length already nonzero) whose logical offset lies below the inode
size, and whose next record decodes successfully, only increases the
logical length in place by the decoded cluster offset of that record and
leaves the logical offset, physical offset, physical length and flags
unchanged, returning success. -/
theorem claim_C9_walking_mode_amended (fuel : Nat)
    (tbl : Nat → z_erofs_vle_decompressed_index) (clusterbits i_size : Nat)
    (map : erofs_map_blocks) (c : Nat)
    (hw : map.m_llen ≠ 0) (hsz : map.m_la < i_size)
    (hdec : vle_decompressed_index_clusterofs (2 ^ clusterbits)
        (tbl (((map.m_la + map.m_llen) / 2 ^ clusterbits) % 4294967296)) =
      Except.ok c) :
    z_erofs_map_blocks_iter fuel tbl clusterbits i_size map =
      some (0, { map with m_llen := map.m_llen + c }) := by
  simp only [z_erofs_map_blocks_iter, if_neg (Nat.not_le.mpr hsz), hdec,
    if_pos hw]

/-- Table for the C9 witness: HEAD records with clusterofs 300. -/
def c9wtbl : Nat → z_erofs_vle_decompressed_index := fun _ => ⟨1, 300, 7⟩

theorem claim_C9_witness :
    (4096 : Nat) ≠ 0 ∧ (0 : Nat) < 100000 ∧
    vle_decompressed_index_clusterofs (2 ^ 12)
        (c9wtbl (((0 + 4096) / 2 ^ 12) % 4294967296)) = Except.ok 300 ∧
    z_erofs_map_blocks_iter 1 c9wtbl 12 100000
        (erofs_map_blocks.mk 0 4096 999 4096 (MapFlags.mk true true)) =
      some (0, erofs_map_blocks.mk 0 4396 999 4096 (MapFlags.mk true true)) :=
  ⟨by decide, by decide, by decide,
    claim_C9_walking_mode_amended 1 c9wtbl 12 100000
      (erofs_map_blocks.mk 0 4096 999 4096 (MapFlags.mk true true)) 300
      (by decide) (by decide) (by decide)⟩

/-! ### Claim C7: the PLAIN arm compared with the HEAD arm -/

/-- The same on-disk record with its two cluster-type bits replaced by
HEAD; every other bit of di_advise and the other fields are unchanged.
This is the comparison record for the claim that PLAIN behaves like HEAD
up to the compressed flag. -/
def retype_as_head (di : z_erofs_vle_decompressed_index) :
    z_erofs_vle_decompressed_index :=
  { di with di_advise :=
      di.di_advise - di.di_advise % 4 + Z_EROFS_VLE_CLUSTER_TYPE_HEAD }

theorem vle_cluster_type_retype_as_head (di : z_erofs_vle_decompressed_index) :
    vle_cluster_type (retype_as_head di) = Z_EROFS_VLE_CLUSTER_TYPE_HEAD := by
  simp only [vle_cluster_type, retype_as_head, Z_EROFS_VLE_CLUSTER_TYPE_HEAD]
  omega

theorem compat_previous_retype_as_head (clustersize : Nat)
    (di : z_erofs_vle_decompressed_index) :
    vle_huawei_compat_previous_clusters clustersize (retype_as_head di) =
      vle_huawei_compat_previous_clusters clustersize di := by
  simp only [vle_huawei_compat_previous_clusters, retype_as_head]
  have h : (di.di_advise - di.di_advise % 4 + Z_EROFS_VLE_CLUSTER_TYPE_HEAD)
      >>> 4 = di.di_advise >>> 4 := by
    simp only [Nat.shiftRight_eq_div_pow, Z_EROFS_VLE_CLUSTER_TYPE_HEAD]
    omega
  rw [h]

/-- The nonhead tail helper only reads the table through the walk, so two
tables agreeing up to the walk start coincide on it. -/
theorem z_erofs_map_blocks_iter_nonhead_tbl_congr (fuel : Nat)
    (tbl tbl' : Nat → z_erofs_vle_decompressed_index) (clusterbits : Nat)
    (map : erofs_map_blocks) (lcn1 end1 : Nat) (flags1 : MapFlags)
    (h : ∀ j, j ≤ lcn1 → tbl j = tbl' j) :
    z_erofs_map_blocks_iter_nonhead fuel tbl clusterbits map lcn1 end1 flags1 =
      z_erofs_map_blocks_iter_nonhead fuel tbl' clusterbits map lcn1 end1
        flags1 := by
  unfold z_erofs_map_blocks_iter_nonhead
  rw [vle_get_logical_extent_head_tbl_congr clusterbits fuel tbl tbl' lcn1
    flags1 h]

/-- Claim C7 (amended): for an initial resolve that decodes a PLAIN record
whose packed previous-cluster count is zero (the compatibility redirect is
not taken), the result equals the HEAD decoding of the same record with the
compressed flag toggled off exactly when the within-cluster remainder of
the requested offset is at or after the record clusterofs (the flag starts
preset as compressed and ends cleared in that case, while the HEAD decoding
keeps it set); when the remainder is before clusterofs the walk-backward
path applies, identically to HEAD. -/
theorem claim_C7_plain_toggle_amended (fuel : Nat)
    (tbl tblH : Nat → z_erofs_vle_decompressed_index) (clusterbits i_size : Nat)
    (map : erofs_map_blocks) (L : Nat)
    (hL : L = ((map.m_la + map.m_llen) / 2 ^ clusterbits) % 4294967296)
    (h0 : map.m_llen = 0) (hsz : map.m_la < i_size)
    (ht : vle_cluster_type (tbl L) = Z_EROFS_VLE_CLUSTER_TYPE_PLAIN)
    (hprev : vle_huawei_compat_previous_clusters (2 ^ clusterbits) (tbl L) = 0)
    (htblH : ∀ j, tblH j = if j = L then retype_as_head (tbl L) else tbl j) :
    ((tbl L).di_clusterofs ≤ (map.m_la + map.m_llen) % 2 ^ clusterbits →
      ∃ mH : erofs_map_blocks,
        z_erofs_map_blocks_iter fuel tblH clusterbits i_size map =
          some (0, mH) ∧
        mH.m_flags = MapFlags.mk true true ∧
        z_erofs_map_blocks_iter fuel tbl clusterbits i_size map =
          some (0, { mH with m_flags := MapFlags.mk true false })) ∧
    ((map.m_la + map.m_llen) % 2 ^ clusterbits < (tbl L).di_clusterofs →
      z_erofs_map_blocks_iter fuel tbl clusterbits i_size map =
        z_erofs_map_blocks_iter fuel tblH clusterbits i_size map) := by
  have htH : vle_cluster_type (tblH L) = Z_EROFS_VLE_CLUSTER_TYPE_HEAD := by
    rw [htblH L, if_pos rfl, vle_cluster_type_retype_as_head]
  have hcofs : (tblH L).di_clusterofs = (tbl L).di_clusterofs := by
    rw [htblH L, if_pos rfl]; rfl
  have hdiu : (tblH L).di_u = (tbl L).di_u := by
    rw [htblH L, if_pos rfl]; rfl
  have hprevH :
      vle_huawei_compat_previous_clusters (2 ^ clusterbits) (tblH L) = 0 := by
    rw [htblH L, if_pos rfl, compat_previous_retype_as_head]
    exact hprev
  have hdecP : vle_decompressed_index_clusterofs (2 ^ clusterbits) (tbl L) =
      Except.ok (tbl L).di_clusterofs := by
    simp [vle_decompressed_index_clusterofs, ht,
      Z_EROFS_VLE_CLUSTER_TYPE_PLAIN, Z_EROFS_VLE_CLUSTER_TYPE_NONHEAD,
      Z_EROFS_VLE_CLUSTER_TYPE_HUAWEI_COMPAT, Z_EROFS_VLE_CLUSTER_TYPE_HEAD]
  have hdecH : vle_decompressed_index_clusterofs (2 ^ clusterbits) (tblH L) =
      Except.ok (tbl L).di_clusterofs := by
    simp [vle_decompressed_index_clusterofs, htH, hcofs,
      Z_EROFS_VLE_CLUSTER_TYPE_PLAIN, Z_EROFS_VLE_CLUSTER_TYPE_NONHEAD,
      Z_EROFS_VLE_CLUSTER_TYPE_HUAWEI_COMPAT, Z_EROFS_VLE_CLUSTER_TYPE_HEAD]
  have hwm : ¬ map.m_llen ≠ 0 := fun hne => hne h0
  have hnprev : ¬ vle_huawei_compat_previous_clusters (2 ^ clusterbits)
      (tbl L) ≠ 0 := fun hne => hne hprev
  have hnprevH : ¬ vle_huawei_compat_previous_clusters (2 ^ clusterbits)
      (tblH L) ≠ 0 := fun hne => hne hprevH
  have htHne0 : vle_cluster_type (tblH L) ≠ Z_EROFS_VLE_CLUSTER_TYPE_PLAIN := by
    rw [htH]; decide
  have htHne3 : vle_cluster_type (tblH L) ≠
      Z_EROFS_VLE_CLUSTER_TYPE_HUAWEI_COMPAT := by
    rw [htH]; decide
  constructor
  · intro hge
    by_cases heq : (map.m_la + map.m_llen) % 2 ^ clusterbits = (tbl L).di_clusterofs
    · refine ⟨{ map with
          m_llen := u64_sub ((L + 1) * 2 ^ clusterbits) (map.m_la + map.m_llen),
          m_pa := (tbl L).di_u * pageSize,
          m_plen := 2 ^ clusterbits,
          m_flags := MapFlags.mk true true }, ?_, ?_, ?_⟩
      · simp only [z_erofs_map_blocks_iter, ← hL, if_neg (Nat.not_le.mpr hsz),
          hdecH, if_neg hwm, if_neg htHne0, if_neg htHne3, if_pos htH,
          z_erofs_map_blocks_iter_headtail, if_pos heq, hdiu]
      · rfl
      · simp only [z_erofs_map_blocks_iter, ← hL, if_neg (Nat.not_le.mpr hsz),
          hdecP, if_neg hwm, if_pos ht,
          z_erofs_map_blocks_iter_compattail, if_neg hnprev, if_pos hge,
          z_erofs_map_blocks_iter_headtail, if_pos heq]
    · have hgt : (tbl L).di_clusterofs < (map.m_la + map.m_llen) % 2 ^ clusterbits :=
        lt_of_le_of_ne hge (fun hc => heq hc.symm)
      have hnlt : ¬ (map.m_la + map.m_llen) % 2 ^ clusterbits =
          (tbl L).di_clusterofs := heq
      refine ⟨{ map with
          m_la := Nat.lor (L * 2 ^ clusterbits) (tbl L).di_clusterofs,
          m_llen := u64_sub ((L + 1) * 2 ^ clusterbits)
            (Nat.lor (L * 2 ^ clusterbits) (tbl L).di_clusterofs),
          m_pa := (tbl L).di_u * pageSize,
          m_plen := 2 ^ clusterbits,
          m_flags := MapFlags.mk true true }, ?_, ?_, ?_⟩
      · simp only [z_erofs_map_blocks_iter, ← hL, if_neg (Nat.not_le.mpr hsz),
          hdecH, if_neg hwm, if_neg htHne0, if_neg htHne3, if_pos htH,
          z_erofs_map_blocks_iter_headtail, if_neg hnlt, if_pos hgt, hdiu]
      · rfl
      · simp only [z_erofs_map_blocks_iter, ← hL, if_neg (Nat.not_le.mpr hsz),
          hdecP, if_neg hwm, if_pos ht,
          z_erofs_map_blocks_iter_compattail, if_neg hnprev, if_pos hge,
          z_erofs_map_blocks_iter_headtail, if_neg hnlt, if_pos hgt]
  · intro hlt
    have hnle : ¬ (tbl L).di_clusterofs ≤ (map.m_la + map.m_llen) % 2 ^ clusterbits :=
      Nat.not_le.mpr hlt
    have hneq : ¬ (map.m_la + map.m_llen) % 2 ^ clusterbits =
        (tbl L).di_clusterofs := Nat.ne_of_lt hlt
    have hnlt2 : ¬ (tbl L).di_clusterofs < (map.m_la + map.m_llen) % 2 ^ clusterbits :=
      Nat.not_lt.mpr (Nat.le_of_lt hlt)
    simp only [z_erofs_map_blocks_iter, ← hL, if_neg (Nat.not_le.mpr hsz),
      hdecP, hdecH, if_neg hwm, if_pos ht, if_neg htHne0, if_neg htHne3,
      if_pos htH, z_erofs_map_blocks_iter_compattail, if_neg hnprev,
      if_neg hnle, z_erofs_map_blocks_iter_headtail, if_neg hneq,
      if_neg hnlt2]
    by_cases hz : L = 0
    · simp only [if_pos hz]
    · simp only [if_neg hz]
      exact z_erofs_map_blocks_iter_nonhead_tbl_congr fuel tbl tblH clusterbits
        map (L - 1) (Nat.lor (L * 2 ^ clusterbits) (tbl L).di_clusterofs)
        (MapFlags.mk map.m_flags.mapped true)
        (fun j hj => by rw [htblH j, if_neg (by omega)])

/-- Table for the C7 counterexample: the record at lcn 2 is PLAIN with
di_advise bit 4 set, so its packed previous-cluster count is 16 and the
compatibility redirect is taken; the walk then lands on the PLAIN head at
lcn 1 which toggles the flag a second time. -/
def c7tbl : Nat → z_erofs_vle_decompressed_index := fun n =>
  if n = 2 then ⟨16, 1000, 77⟩ else if n = 1 then ⟨0, 0, 5⟩ else ⟨0, 0, 0⟩

/-- The same table with the record at lcn 2 retyped as HEAD. -/
def c7tblH : Nat → z_erofs_vle_decompressed_index := fun n =>
  if n = 2 then ⟨17, 1000, 77⟩ else c7tbl n

/-- Claim C7 counterexample: an initial resolve at offset 11192 (lcn 2,
remainder 3000) decodes a PLAIN record with clusterofs 1000, so the
remainder is at or after the record clusterofs, yet the resulting mapping
has the compressed flag still set — the same value the HEAD decoding of
that record produces, not its opposite: the claimed toggle is defeated by
the compatibility redirect of the PLAIN arm. -/
theorem claim_C7_counterexample :
    vle_cluster_type (c7tbl 2) = Z_EROFS_VLE_CLUSTER_TYPE_PLAIN ∧
    (c7tbl 2).di_clusterofs ≤ 11192 % 2 ^ 12 ∧
    z_erofs_map_blocks_iter 10 c7tbl 12 100000
        (erofs_map_blocks.mk 11192 0 0 0 (MapFlags.mk false false)) =
      some (0, erofs_map_blocks.mk 4096 8192 20480 4096
        (MapFlags.mk true true)) ∧
    z_erofs_map_blocks_iter 10 c7tblH 12 100000
        (erofs_map_blocks.mk 11192 0 0 0 (MapFlags.mk false false)) =
      some (0, erofs_map_blocks.mk 9192 3096 315392 4096
        (MapFlags.mk true true)) := by
  refine ⟨by decide, by decide, ?_, ?_⟩ <;> decide

/-- Table for the C7 witness: PLAIN records with clusterofs 100 and a zero
packed previous-cluster count. -/
def c7wtbl : Nat → z_erofs_vle_decompressed_index := fun _ => ⟨0, 100, 7⟩

/-- The witness table with the record at lcn 1 retyped as HEAD. -/
def c7wtblH : Nat → z_erofs_vle_decompressed_index := fun j =>
  if j = 1 then retype_as_head (c7wtbl 1) else c7wtbl j

theorem claim_C7_witness :
    ∃ mH : erofs_map_blocks,
      z_erofs_map_blocks_iter 5 c7wtblH 12 100000
          (erofs_map_blocks.mk 5000 0 0 0 (MapFlags.mk false false)) =
        some (0, mH) ∧
      mH.m_flags = MapFlags.mk true true ∧
      z_erofs_map_blocks_iter 5 c7wtbl 12 100000
          (erofs_map_blocks.mk 5000 0 0 0 (MapFlags.mk false false)) =
        some (0, { mH with m_flags := MapFlags.mk true false }) :=
  (claim_C7_plain_toggle_amended 5 c7wtbl c7wtblH 12 100000
      (erofs_map_blocks.mk 5000 0 0 0 (MapFlags.mk false false)) 1
      (by decide) rfl (by decide) (by decide) (by decide)
      (fun j => rfl)).1 (by decide)

/-! ### Workgroup claiming, registration and llen update -/

/-- The roles of enum z_erofs_vle_work_role. -/
inductive z_erofs_vle_work_role where
  | secondary
  | primary
  | primary_terminal
  | primary_followed
deriving DecidableEq, Repr

/-- The owned-chain link field z_erofs_vle_owned_workgrp_t: the three
sentinel values NIL / TAIL / TAIL_CLOSED, or a pointer to a workgroup
(represented by the registry index of the workgroup it points to). -/
inductive z_erofs_vle_owned_workgrp_t where
  | nil
  | tail
  | tail_closed
  | grp (idx : Nat)
deriving DecidableEq, Repr

/-- try_to_claim_workgroup, sequentialized: under the work mutex the two
cmpxchg retries always succeed right after their equality tests, so the
function is a pure transition on (grp->next, *owned_head, *hosted).
Argument self is the identity of the workgroup being claimed; the result is
(role, new grp->next, new *owned_head, new *hosted). -/
def try_to_claim_workgroup (self : Nat)
    (next owned_head : z_erofs_vle_owned_workgrp_t) (hosted : Bool) :
    z_erofs_vle_work_role × z_erofs_vle_owned_workgrp_t ×
      z_erofs_vle_owned_workgrp_t × Bool :=
  if next = z_erofs_vle_owned_workgrp_t.nil then
    -- type 1, nil workgroup: cmpxchg(&grp->next, NIL, *owned_head)
    (z_erofs_vle_work_role.primary_followed, owned_head,
      z_erofs_vle_owned_workgrp_t.grp self, true)
  else if next = z_erofs_vle_owned_workgrp_t.tail then
    -- type 2, link to the end of an existing open chain
    (z_erofs_vle_work_role.primary_terminal, owned_head,
      z_erofs_vle_owned_workgrp_t.tail, hosted)
  else
    (z_erofs_vle_work_role.primary, next, owned_head, hosted)

/-- Claim C4: claiming a Workgroup behaves by cases on its next field:
NIL — the CAS installs the caller owned_head into next, owned_head becomes
this Workgroup, hosted becomes true, role PRIMARY_FOLLOWED; TAIL — the CAS
installs owned_head into next, owned_head becomes TAIL, hosted is not
touched, role PRIMARY_TERMINAL; anything else — role PRIMARY and neither
next, owned_head nor hosted is modified. -/
theorem claim_C4_try_to_claim_workgroup_roles (self : Nat)
    (next owned_head : z_erofs_vle_owned_workgrp_t) (hosted : Bool) :
    (next = z_erofs_vle_owned_workgrp_t.nil →
      try_to_claim_workgroup self next owned_head hosted =
        (z_erofs_vle_work_role.primary_followed, owned_head,
          z_erofs_vle_owned_workgrp_t.grp self, true)) ∧
    (next = z_erofs_vle_owned_workgrp_t.tail →
      try_to_claim_workgroup self next owned_head hosted =
        (z_erofs_vle_work_role.primary_terminal, owned_head,
          z_erofs_vle_owned_workgrp_t.tail, hosted)) ∧
    (next ≠ z_erofs_vle_owned_workgrp_t.nil →
      next ≠ z_erofs_vle_owned_workgrp_t.tail →
      try_to_claim_workgroup self next owned_head hosted =
        (z_erofs_vle_work_role.primary, next, owned_head, hosted)) := by
  refine ⟨fun h1 => ?_, fun h2 => ?_, fun h1 h2 => ?_⟩
  · simp [try_to_claim_workgroup, h1]
  · subst h2
    simp [try_to_claim_workgroup]
  · simp [try_to_claim_workgroup, h1, h2]

theorem claim_C4_witness :
    (try_to_claim_workgroup 5 z_erofs_vle_owned_workgrp_t.nil
        z_erofs_vle_owned_workgrp_t.tail false =
      (z_erofs_vle_work_role.primary_followed,
        z_erofs_vle_owned_workgrp_t.tail,
        z_erofs_vle_owned_workgrp_t.grp 5, true)) ∧
    (try_to_claim_workgroup 5 z_erofs_vle_owned_workgrp_t.tail
        (z_erofs_vle_owned_workgrp_t.grp 9) false =
      (z_erofs_vle_work_role.primary_terminal,
        z_erofs_vle_owned_workgrp_t.grp 9,
        z_erofs_vle_owned_workgrp_t.tail, false)) ∧
    (try_to_claim_workgroup 5 (z_erofs_vle_owned_workgrp_t.grp 8)
        (z_erofs_vle_owned_workgrp_t.grp 9) false =
      (z_erofs_vle_work_role.primary, z_erofs_vle_owned_workgrp_t.grp 8,
        z_erofs_vle_owned_workgrp_t.grp 9, false)) :=
  ⟨(claim_C4_try_to_claim_workgroup_roles 5 z_erofs_vle_owned_workgrp_t.nil
      z_erofs_vle_owned_workgrp_t.tail false).1 rfl,
    (claim_C4_try_to_claim_workgroup_roles 5 z_erofs_vle_owned_workgrp_t.tail
      (z_erofs_vle_owned_workgrp_t.grp 9) false).2.1 rfl,
    (claim_C4_try_to_claim_workgroup_roles 5
      (z_erofs_vle_owned_workgrp_t.grp 8)
      (z_erofs_vle_owned_workgrp_t.grp 9) false).2.2
      (by decide) (by decide)⟩

/-- The workgroup format tag (raw vs LZ4-compressed cluster). -/
inductive WorkgrpFmt where
  | plain
  | lz4
deriving DecidableEq, Repr

/-- What the decompression pass reads from page->mapping and the online
union of a page: a staging page (Z_EROFS_MAPPING_STAGING), a page of the
managed compressed-page cache with its PG_uptodate bit, or an online
(destination file) page with its recorded destination index. -/
inductive PageMappingKind where
  | staging
  | managed (uptodate : Bool)
  | online (index : Nat)
deriving DecidableEq, Repr

/-- A page as seen by this subsystem: an identity plus its mapping kind. -/
structure UnzipPage where
  id : Nat
  kind : PageMappingKind
deriving DecidableEq, Repr

/-- The page types recorded in the work pagevec (enum z_erofs_page_type;
modelled from the spec, the pagevec header is not under src/). -/
inductive z_erofs_page_type where
  | exclusive
  | head
  | tail_shared
deriving DecidableEq, Repr

/-- struct z_erofs_vle_work: destination bookkeeping protected by the work
mutex.  The pagevec is the ordered (page, page-type) sequence; vcnt is the
number of valid entries. -/
structure z_erofs_vle_work where
  pageofs : Nat
  nr_pages : Nat
  vcnt : Nat
  pagevec : List (UnzipPage × z_erofs_page_type)
deriving DecidableEq, Repr

/-- struct z_erofs_vle_workgroup: registry index, decompressed length llen,
format tag, owned-chain link, reference count and the compressed-page slots
(one per cluster page, NULL when unfilled). -/
structure z_erofs_vle_workgroup where
  index : Nat
  llen : Nat
  fmt : WorkgrpFmt
  next : z_erofs_vle_owned_workgrp_t
  refcount : Int
  compressed_pages : List (Option UnzipPage)
deriving DecidableEq, Repr

/-- z_erofs_vle_work_register: allocate and initialize a fresh workgroup
for key idx from the creating mapping (kmem_cache_zalloc zeroes the slots
and the primary work).  The new workgroup is claimed as type 1: next is set
to the current *owned_head, role is PRIMARY_FOLLOWED, *hosted becomes true
and *owned_head becomes the new workgroup.  The result is
(grp, primary work, role, hosted, new owned_head). -/
def z_erofs_vle_work_register (clusterpages idx pageofs m_llen : Nat)
    (map_zipped : Bool) (owned_head : z_erofs_vle_owned_workgrp_t) :
    z_erofs_vle_workgroup × z_erofs_vle_work × z_erofs_vle_work_role ×
      Bool × z_erofs_vle_owned_workgrp_t :=
  ({ index := idx,
     llen := m_llen,
     fmt := if map_zipped then WorkgrpFmt.lz4 else WorkgrpFmt.plain,
     next := owned_head,
     refcount := 1,
     compressed_pages := List.replicate clusterpages none },
   { pageofs := pageofs, nr_pages := 0, vcnt := 0, pagevec := [] },
   z_erofs_vle_work_role.primary_followed, true,
   z_erofs_vle_owned_workgrp_t.grp idx)

/-- The llen update loop of z_erofs_vle_work_iter_begin, sequentialized:
while ((orig_llen = READ_ONCE(grp->llen)) < map->m_llen and the relaxed
cmpxchg of grp->llen from orig_llen to map->m_llen fails) retry — under
sequential semantics the first cmpxchg succeeds, so the loop raises llen to
m_llen exactly when m_llen is larger. -/
def z_erofs_vle_work_iter_begin_llen (llen m_llen : Nat) : Nat :=
  if llen < m_llen then m_llen else llen

/-- Claim C10: the recorded decompressed length llen of a live workgroup is
monotonically non-decreasing: registration initializes it to the creating
mapping logical length, and the work-iteration begin update never lowers
it — it raises it to the joining mapping logical length exactly when that
is larger. -/
theorem claim_C10_llen_monotone :
    (∀ (clusterpages idx pageofs m_llen : Nat) (z : Bool)
        (oh : z_erofs_vle_owned_workgrp_t),
      (z_erofs_vle_work_register clusterpages idx pageofs m_llen z oh).1.llen =
        m_llen) ∧
    (∀ llen m_llen : Nat,
      llen ≤ z_erofs_vle_work_iter_begin_llen llen m_llen ∧
      (m_llen ≤ llen → z_erofs_vle_work_iter_begin_llen llen m_llen = llen) ∧
      (llen < m_llen →
        z_erofs_vle_work_iter_begin_llen llen m_llen = m_llen)) := by
  refine ⟨fun _ _ _ _ _ _ => rfl, fun llen m_llen => ⟨?_, fun hle => ?_, fun hlt => ?_⟩⟩
  · unfold z_erofs_vle_work_iter_begin_llen
    split_ifs with h
    · exact Nat.le_of_lt h
    · exact le_rfl
  · simp [z_erofs_vle_work_iter_begin_llen, Nat.not_lt.mpr hle]
  · simp [z_erofs_vle_work_iter_begin_llen, hlt]

theorem claim_C10_witness :
    (z_erofs_vle_work_register 4 3 0 777 true
        z_erofs_vle_owned_workgrp_t.tail).1.llen = 777 ∧
    (3 : Nat) ≤ z_erofs_vle_work_iter_begin_llen 3 9 ∧
    z_erofs_vle_work_iter_begin_llen 9 3 = 9 ∧
    z_erofs_vle_work_iter_begin_llen 3 9 = 9 :=
  ⟨claim_C10_llen_monotone.1 4 3 0 777 true z_erofs_vle_owned_workgrp_t.tail,
    (claim_C10_llen_monotone.2 3 9).1,
    (claim_C10_llen_monotone.2 9 3).2.1 (by decide),
    (claim_C10_llen_monotone.2 3 9).2.2 (by decide)⟩

/-! ### Reclaim of cached compressed pages -/

/-- Modelled from the spec (erofs_workgroup_try_to_freeze lives in the
utility part of the driver, not under src/): freezing CASes the reference
count from the expected value to a locked sentinel; it succeeds exactly
when the count equals the expected value and fails (busy) otherwise. -/
def erofs_workgroup_try_to_freeze (refcount expected : Int) : Bool :=
  if refcount = expected then true else false

/-- The page state erofs_try_to_free_cached_page can mutate: the
PagePrivate owner tag and the page reference count. -/
structure ReclaimPageState where
  private_set : Bool
  count : Nat
deriving DecidableEq, Repr

/-- The slot scan of erofs_try_to_free_cached_page: find the slot holding
this page, clear it, and report whether it was found. -/
def erofs_free_cached_scan (page : UnzipPage) :
    List (Option UnzipPage) → Bool × List (Option UnzipPage)
  | [] => (false, [])
  | s :: rest =>
    if s = some page then (true, none :: rest)
    else
      ((erofs_free_cached_scan page rest).1,
        s :: (erofs_free_cached_scan page rest).2)

/-- erofs_try_to_free_cached_page: under rcu, freeze the owning workgroup
at expected refcount 1; on success clear the slot holding the page, then
unfreeze back to 1; if the slot was found, clear the PagePrivate tag and
drop the page reference.  A failed freeze returns 0 (busy) with nothing,
neither workgroup nor page state, modified. -/
def erofs_try_to_free_cached_page (grp : z_erofs_vle_workgroup)
    (page : UnzipPage) (pst : ReclaimPageState) :
    Int × z_erofs_vle_workgroup × ReclaimPageState :=
  if erofs_workgroup_try_to_freeze grp.refcount 1 then
    if (erofs_free_cached_scan page grp.compressed_pages).1 then
      (1,
        { grp with
          compressed_pages := (erofs_free_cached_scan page
            grp.compressed_pages).2,
          refcount := 1 },
        { private_set := false, count := pst.count - 1 })
    else
      (0,
        { grp with
          compressed_pages := (erofs_free_cached_scan page
            grp.compressed_pages).2,
          refcount := 1 },
        pst)
  else (0, grp, pst)

/-- The slot loop of erofs_try_to_free_all_cached_pages: each cached page
is trylocked, its owner tag cleared, the slot nulled and the page dropped;
a failed trylock returns -EBUSY at once, leaving the remaining slots as
they are.  page_lockable says whether trylock_page would succeed. -/
def erofs_free_all_scan (page_lockable : Nat → Bool) :
    List (Option UnzipPage) → Int × List (Option UnzipPage)
  | [] => (0, [])
  | none :: rest =>
    ((erofs_free_all_scan page_lockable rest).1,
      none :: (erofs_free_all_scan page_lockable rest).2)
  | some p :: rest =>
    if page_lockable p.id then
      ((erofs_free_all_scan page_lockable rest).1,
        none :: (erofs_free_all_scan page_lockable rest).2)
    else (-ebusy, some p :: rest)

/-- erofs_try_to_free_all_cached_pages: called with the workgroup already
frozen at refcount 1; a failed mutex_trylock on the primary work returns
-EBUSY without touching anything, otherwise the slots are scanned as
above.  work_mutex_free says whether mutex_trylock would succeed. -/
def erofs_try_to_free_all_cached_pages (work_mutex_free : Bool)
    (page_lockable : Nat → Bool) (grp : z_erofs_vle_workgroup) :
    Int × z_erofs_vle_workgroup :=
  if work_mutex_free then
    ((erofs_free_all_scan page_lockable grp.compressed_pages).1,
      { grp with compressed_pages :=
          (erofs_free_all_scan page_lockable grp.compressed_pages).2 })
  else (-ebusy, grp)

/-- If any slot holds a page whose trylock fails, the slot scan reports
busy (the loop stops at the first such page). -/
theorem erofs_free_all_scan_busy (page_lockable : Nat → Bool) :
    ∀ (l : List (Option UnzipPage)) (p : UnzipPage),
      (some p) ∈ l → page_lockable p.id = false →
      (erofs_free_all_scan page_lockable l).1 = -ebusy := by
  intro l
  induction l with
  | nil => intro p hp; simp at hp
  | cons s rest ih =>
    intro p hp hlock
    rcases List.mem_cons.mp hp with hh | hh
    · rw [← hh]
      simp [erofs_free_all_scan, hlock]
    · match s with
      | none => simpa [erofs_free_all_scan] using ih p hh hlock
      | some q =>
        by_cases hq : page_lockable q.id
        · simpa [erofs_free_all_scan, hq] using ih p hh hlock
        · simp [erofs_free_all_scan, hq]

/-- Claim C6: a reclaim attempt on a Workgroup whose reference count is not
the expected value 1 fails its freeze CAS, reports busy (0) and mutates
neither the workgroup (compressed-page slots, refcount) nor the page state
(private tag, reference count); and reclaim of all cached pages returns
-EBUSY rather than blocking both when the work mutex cannot be acquired
immediately and when the lock of any cached page cannot be acquired
immediately. -/
theorem claim_C6_reclaim_busy_no_mutation :
    (∀ (grp : z_erofs_vle_workgroup) (page : UnzipPage)
        (pst : ReclaimPageState),
      grp.refcount ≠ 1 →
      erofs_workgroup_try_to_freeze grp.refcount 1 = false ∧
      erofs_try_to_free_cached_page grp page pst = (0, grp, pst)) ∧
    (∀ (page_lockable : Nat → Bool) (grp : z_erofs_vle_workgroup),
      erofs_try_to_free_all_cached_pages false page_lockable grp =
        (-ebusy, grp)) ∧
    (∀ (page_lockable : Nat → Bool) (grp : z_erofs_vle_workgroup)
        (p : UnzipPage),
      (some p) ∈ grp.compressed_pages → page_lockable p.id = false →
      (erofs_try_to_free_all_cached_pages true page_lockable grp).1 =
        -ebusy) := by
  refine ⟨fun grp page pst h => ?_, fun page_lockable grp => rfl,
    fun page_lockable grp p hp hlock => ?_⟩
  · have hf : erofs_workgroup_try_to_freeze grp.refcount 1 = false := by
      simp [erofs_workgroup_try_to_freeze, h]
    exact ⟨hf, by simp [erofs_try_to_free_cached_page, hf]⟩
  · simpa [erofs_try_to_free_all_cached_pages] using
      erofs_free_all_scan_busy page_lockable grp.compressed_pages p hp hlock

/-- Workgroup for the C6 witness: refcount 3 (two extra readers), one
cached page in its slots. -/
def c6grp : z_erofs_vle_workgroup :=
  { index := 2, llen := 100, fmt := WorkgrpFmt.lz4,
    next := z_erofs_vle_owned_workgrp_t.nil, refcount := 3,
    compressed_pages := [some ⟨21, PageMappingKind.managed true⟩, none] }

theorem claim_C6_witness :
    (erofs_workgroup_try_to_freeze c6grp.refcount 1 = false ∧
      erofs_try_to_free_cached_page c6grp
          ⟨21, PageMappingKind.managed true⟩ ⟨true, 2⟩ =
        (0, c6grp, ⟨true, 2⟩)) ∧
    erofs_try_to_free_all_cached_pages false (fun _ => true) c6grp =
      (-ebusy, c6grp) ∧
    (erofs_try_to_free_all_cached_pages true (fun _ => false) c6grp).1 =
      -ebusy :=
  ⟨claim_C6_reclaim_busy_no_mutation.1 c6grp
      ⟨21, PageMappingKind.managed true⟩ ⟨true, 2⟩ (by decide),
    claim_C6_reclaim_busy_no_mutation.2.1 (fun _ => true) c6grp,
    claim_C6_reclaim_busy_no_mutation.2.2 (fun _ => false) c6grp
      ⟨21, PageMappingKind.managed true⟩ (by decide) rfl⟩

/-! ### The decompression pass z_erofs_vle_unzip -/

/-- Modelled from the spec (the online-page helpers live in the driver
header, not under src/): z_erofs_onlinepage_index reads the destination
index recorded in the online union of the page.  Only online (destination)
pages reach its callers in well-formed runs; the unreachable arms are fixed
at 0. -/
def z_erofs_onlinepage_index (p : UnzipPage) : Nat :=
  match p.kind with
  | PageMappingKind.online i => i
  | _ => 0

/-- The first loop of z_erofs_vle_unzip: dequeue the vcnt pagevec entries
in order; staging pages are recycled into the page pool; every other page
goes into the destination array at index 0 for HEAD-typed entries and at
its online index otherwise.  The BUG_ON checks (index in range, slot still
empty) become the bug outcome none. -/
def z_erofs_vle_unzip_gather_pagevec :
    List (UnzipPage × z_erofs_page_type) → List (Option UnzipPage) →
    List Nat → Option (List (Option UnzipPage) × List Nat)
  | [], pages, recycled => some (pages, recycled)
  | (page, ptype) :: rest, pages, recycled =>
    if page.kind = PageMappingKind.staging then
      z_erofs_vle_unzip_gather_pagevec rest pages (recycled ++ [page.id])
    else
      match pages.get? (if ptype = z_erofs_page_type.head then 0
          else z_erofs_onlinepage_index page) with
      | some none =>
        z_erofs_vle_unzip_gather_pagevec rest
          (pages.set (if ptype = z_erofs_page_type.head then 0
            else z_erofs_onlinepage_index page) (some page)) recycled
      | _ => none

/-- The second loop of z_erofs_vle_unzip over the compressed slots:
staging pages are skipped, a managed-cache page that is not up to date
records the I/O failure err = -EIO, and any other page was reused in place
as a destination page, so it joins the destination array at its online
index (overlapped), bumping sparsemem_pages.  The accumulator is
(pages, err, overlapped, sparsemem_pages); an unfilled (NULL) slot or a
failed BUG_ON check is the bug outcome none. -/
def z_erofs_vle_unzip_scan_compressed :
    List (Option UnzipPage) → List (Option UnzipPage) → Int → Bool → Nat →
    Option (List (Option UnzipPage) × Int × Bool × Nat)
  | [], pages, err, overlapped, sparsemem =>
    some (pages, err, overlapped, sparsemem)
  | none :: _, _, _, _, _ => none
  | some page :: rest, pages, err, overlapped, sparsemem =>
    match page.kind with
    | PageMappingKind.staging =>
      z_erofs_vle_unzip_scan_compressed rest pages err overlapped sparsemem
    | PageMappingKind.managed uptodate =>
      z_erofs_vle_unzip_scan_compressed rest pages
        (if uptodate then err else -eio) overlapped sparsemem
    | PageMappingKind.online _ =>
      match pages.get? (z_erofs_onlinepage_index page) with
      | some none =>
        z_erofs_vle_unzip_scan_compressed rest
          (pages.set (z_erofs_onlinepage_index page) (some page))
          err true (sparsemem + 1)
      | _ => none

/-- The cleanup loop at the out label: every compressed slot is visited;
managed-cache pages stay in place (and in the cache), staging pages are
recycled into the pool and their slot cleared, any other page just has its
slot cleared.  Result: (slots afterwards, recycled staging page ids). -/
def z_erofs_vle_unzip_cleanup_compressed :
    List (Option UnzipPage) → List (Option UnzipPage) × List Nat
  | [] => ([], [])
  | none :: rest =>
    (none :: (z_erofs_vle_unzip_cleanup_compressed rest).1,
      (z_erofs_vle_unzip_cleanup_compressed rest).2)
  | some p :: rest =>
    match p.kind with
    | PageMappingKind.managed _ =>
      (some p :: (z_erofs_vle_unzip_cleanup_compressed rest).1,
        (z_erofs_vle_unzip_cleanup_compressed rest).2)
    | PageMappingKind.staging =>
      (none :: (z_erofs_vle_unzip_cleanup_compressed rest).1,
        p.id :: (z_erofs_vle_unzip_cleanup_compressed rest).2)
    | PageMappingKind.online _ =>
      (none :: (z_erofs_vle_unzip_cleanup_compressed rest).1,
        (z_erofs_vle_unzip_cleanup_compressed rest).2)

/-- The final loop of z_erofs_vle_unzip over the destination array: empty
slots are skipped, staging pages are recycled, every other page is
finalized — SetPageError when err < 0, then z_erofs_onlinepage_endio.
Result: (recycled staging ids, finalized (page id, error flag) pairs). -/
def z_erofs_vle_unzip_finalize_pages (err : Int) :
    List (Option UnzipPage) → List Nat × List (Nat × Bool)
  | [] => ([], [])
  | none :: rest => z_erofs_vle_unzip_finalize_pages err rest
  | some p :: rest =>
    if p.kind = PageMappingKind.staging then
      (p.id :: (z_erofs_vle_unzip_finalize_pages err rest).1,
        (z_erofs_vle_unzip_finalize_pages err rest).2)
    else
      ((z_erofs_vle_unzip_finalize_pages err rest).1,
        (p.id, decide (err < 0)) ::
          (z_erofs_vle_unzip_finalize_pages err rest).2)

/-- The staging-allocation loop before the vmap path: every still-empty
destination slot receives a freshly allocated staging page (allocation is
modelled by the id supply fresh_staging; the source draws from the page
pool with a blocking GFP_NOFS fallback, so allocation always succeeds). -/
def z_erofs_vle_unzip_fill_staging (fresh_staging : Nat → Nat) :
    List (Option UnzipPage) → Nat → List (Option UnzipPage)
  | [], _ => []
  | none :: rest, k =>
    some ⟨fresh_staging k, PageMappingKind.staging⟩ ::
      z_erofs_vle_unzip_fill_staging fresh_staging rest (k + 1)
  | some p :: rest, k =>
    some p :: z_erofs_vle_unzip_fill_staging fresh_staging rest k

/-- The observable outcome of one decompression pass: the returned error,
which decompression entry points were invoked (plain copy, the fast
per-cpu path, the vmap path), the compressed slots after cleanup, the
staging pages recycled into the pool, and the finalized destination pages
with their error flag. -/
structure UnzipResult where
  err : Int
  invoked_plain_copy : Bool
  invoked_fast : Bool
  invoked_vmap : Bool
  compressed_slots : List (Option UnzipPage)
  recycled : List Nat
  finalized : List (Nat × Bool)
deriving DecidableEq, Repr

/-- A run of the pass: either a kernel BUG (an assertion of the source
failed) or a completed run with its observable outcome. -/
inductive UnzipOut where
  | bug
  | res (r : UnzipResult)
deriving DecidableEq, Repr

/-- The out label of z_erofs_vle_unzip: clean up the compressed slots,
finalize the destination array, and package the result. -/
def z_erofs_vle_unzip_out (err : Int) (ipc ifast ivmap : Bool)
    (compressed : List (Option UnzipPage)) (pages : List (Option UnzipPage))
    (recycled : List Nat) : UnzipOut :=
  UnzipOut.res
    { err := err,
      invoked_plain_copy := ipc,
      invoked_fast := ifast,
      invoked_vmap := ivmap,
      compressed_slots :=
        (z_erofs_vle_unzip_cleanup_compressed compressed).1,
      recycled := recycled ++
        (z_erofs_vle_unzip_cleanup_compressed compressed).2 ++
        (z_erofs_vle_unzip_finalize_pages err pages).1,
      finalized := (z_erofs_vle_unzip_finalize_pages err pages).2 }

/-- z_erofs_vle_unzip: one decompression pass over a workgroup.  The
destination array (nr_pages entries) is populated from the pagevec and
from compressed pages reused in place; a cache-managed compressed page
that is not up to date sets err = -EIO and the decompressors are skipped;
otherwise the plain-copy path runs for the PLAIN format (after the
BUG_ON(grp->llen != llen) check), else the fast path, and on its -ENOTSUPP
the vmap path after staging allocation for the still-empty slots.  The
external decompressor calls (they live outside src/) are modelled by the
oracle outcomes err_plain_copy / err_fast / err_vmap and vmap_ok for the
erofs_vmap allocation; their llen / pageofs inputs do not affect the
observable outcome recorded here.  All paths funnel through the out label,
which also resets grp->next to NIL and releases the work (chain bookkeeping
not recorded in the result). -/
def z_erofs_vle_unzip (clusterpages : Nat) (grp : z_erofs_vle_workgroup)
    (work : z_erofs_vle_work) (err_plain_copy err_fast err_vmap : Int)
    (vmap_ok : Bool) (fresh_staging : Nat → Nat) : UnzipOut :=
  if work.nr_pages = 0 then UnzipOut.bug
  else
    match z_erofs_vle_unzip_gather_pagevec (work.pagevec.take work.vcnt)
        (List.replicate work.nr_pages none) [] with
    | none => UnzipOut.bug
    | some (pages1, recycled1) =>
      match z_erofs_vle_unzip_scan_compressed
          (grp.compressed_pages.take clusterpages) pages1 0 false
          work.vcnt with
      | none => UnzipOut.bug
      | some (pages2, err2, _overlapped, sparsemem2) =>
        if err2 ≠ 0 then
          z_erofs_vle_unzip_out err2 false false false
            (grp.compressed_pages.take clusterpages) pages2 recycled1
        else if grp.fmt = WorkgrpFmt.plain then
          if grp.llen ≠ work.nr_pages * pageSize - work.pageofs then
            UnzipOut.bug
          else
            z_erofs_vle_unzip_out err_plain_copy true false false
              (grp.compressed_pages.take clusterpages) pages2 recycled1
        else if err_fast ≠ -enotsupp then
          z_erofs_vle_unzip_out err_fast false true false
            (grp.compressed_pages.take clusterpages) pages2 recycled1
        else if work.nr_pages ≤ sparsemem2 then
          if work.nr_pages < sparsemem2 then UnzipOut.bug
          else if vmap_ok = false then
            z_erofs_vle_unzip_out (-enomem) false true false
              (grp.compressed_pages.take clusterpages) pages2 recycled1
          else
            z_erofs_vle_unzip_out err_vmap false true true
              (grp.compressed_pages.take clusterpages) pages2 recycled1
        else if vmap_ok = false then
          z_erofs_vle_unzip_out (-enomem) false true false
            (grp.compressed_pages.take clusterpages)
            (z_erofs_vle_unzip_fill_staging fresh_staging pages2 0) recycled1
        else
          z_erofs_vle_unzip_out err_vmap false true true
            (grp.compressed_pages.take clusterpages)
            (z_erofs_vle_unzip_fill_staging fresh_staging pages2 0) recycled1

/-! ### Facts about the decompression-pass loops -/

/-- Setting a slot that currently holds none cannot remove an occupied
entry from the destination array. -/
theorem mem_set_of_get?_none :
    ∀ (l : List (Option UnzipPage)) (i : Nat) (p : UnzipPage)
      (v : Option UnzipPage),
      (some p) ∈ l → l.get? i = some none → (some p) ∈ l.set i v := by
  intro l
  induction l with
  | nil => intro i p v hp; simp at hp
  | cons a rest ih =>
    intro i p v hp hget
    match i with
    | 0 =>
      simp only [List.get?] at hget
      rcases List.mem_cons.mp hp with hh | hh
      · rw [← hh] at hget
        simp at hget
      · simp [List.set]
        exact Or.inr hh
    | Nat.succ j =>
      simp only [List.get?] at hget
      rcases List.mem_cons.mp hp with hh | hh
      · simp [List.set, ← hh]
      · simp [List.set]
        exact Or.inr (ih j p v hh hget)

/-- A freshly set entry is in the array (the set index is in range because
get? found a slot there). -/
theorem mem_set_self_of_get? :
    ∀ (l : List (Option UnzipPage)) (i : Nat) (w v : Option UnzipPage),
      l.get? i = some w → v ∈ l.set i v := by
  intro l
  induction l with
  | nil => intro i w v hget; simp at hget
  | cons a rest ih =>
    intro i w v hget
    match i with
    | 0 => simp [List.set]
    | Nat.succ j =>
      simp only [List.get?] at hget
      simp [List.set]
      exact Or.inr (ih j w v hget)

/-- The pagevec gather loop never evicts an occupied destination slot. -/
theorem z_erofs_vle_unzip_gather_pagevec_preserves :
    ∀ (vec : List (UnzipPage × z_erofs_page_type))
      (pages : List (Option UnzipPage)) (recycled : List Nat)
      (out : List (Option UnzipPage) × List Nat) (p : UnzipPage),
      z_erofs_vle_unzip_gather_pagevec vec pages recycled = some out →
      (some p) ∈ pages → (some p) ∈ out.1 := by
  intro vec
  induction vec with
  | nil =>
    intro pages recycled out p hrun hp
    simp only [z_erofs_vle_unzip_gather_pagevec] at hrun
    cases hrun
    exact hp
  | cons e rest ih =>
    intro pages recycled out p hrun hp
    match e with
    | (page, ptype) =>
      by_cases hst : page.kind = PageMappingKind.staging
      · rw [z_erofs_vle_unzip_gather_pagevec, if_pos hst] at hrun
        exact ih _ _ _ p hrun hp
      · rw [z_erofs_vle_unzip_gather_pagevec, if_neg hst] at hrun
        cases hget : pages.get? (if ptype = z_erofs_page_type.head then 0
            else z_erofs_onlinepage_index page) with
        | none => rw [hget] at hrun; cases hrun
        | some w =>
          cases w with
          | none =>
            rw [hget] at hrun
            exact ih _ _ _ p hrun (mem_set_of_get?_none _ _ _ _ hp hget)
          | some q => rw [hget] at hrun; cases hrun

/-- Every non-staging pagevec entry ends up in the destination array when
the gather loop completes. -/
theorem z_erofs_vle_unzip_gather_pagevec_inserts :
    ∀ (vec : List (UnzipPage × z_erofs_page_type))
      (pages : List (Option UnzipPage)) (recycled : List Nat)
      (out : List (Option UnzipPage) × List Nat) (p : UnzipPage)
      (t : z_erofs_page_type),
      z_erofs_vle_unzip_gather_pagevec vec pages recycled = some out →
      (p, t) ∈ vec → p.kind ≠ PageMappingKind.staging →
      (some p) ∈ out.1 := by
  intro vec
  induction vec with
  | nil =>
    intro pages recycled out p t hrun hp
    simp at hp
  | cons e rest ih =>
    intro pages recycled out p t hrun hp hns
    match e with
    | (page, ptype) =>
      rcases List.mem_cons.mp hp with hh | hh
      · injection hh with h1 h2
        subst h1
        subst h2
        rw [z_erofs_vle_unzip_gather_pagevec, if_neg hns] at hrun
        cases hget : pages.get? (if t = z_erofs_page_type.head then 0
            else z_erofs_onlinepage_index p) with
        | none => rw [hget] at hrun; cases hrun
        | some w =>
          cases w with
          | none =>
            rw [hget] at hrun
            exact z_erofs_vle_unzip_gather_pagevec_preserves _ _ _ _ p hrun
              (mem_set_self_of_get? _ _ _ _ hget)
          | some q => rw [hget] at hrun; cases hrun
      · by_cases hst : page.kind = PageMappingKind.staging
        · rw [z_erofs_vle_unzip_gather_pagevec, if_pos hst] at hrun
          exact ih _ _ _ p t hrun hh hns
        · rw [z_erofs_vle_unzip_gather_pagevec, if_neg hst] at hrun
          cases hget : pages.get? (if ptype = z_erofs_page_type.head then 0
              else z_erofs_onlinepage_index page) with
          | none => rw [hget] at hrun; cases hrun
          | some w =>
            cases w with
            | none =>
              rw [hget] at hrun
              exact ih _ _ _ p t hrun hh hns
            | some q => rw [hget] at hrun; cases hrun

/-- Once the compressed-slot scan has recorded the I/O error, it keeps it:
no later slot can clear err again. -/
theorem z_erofs_vle_unzip_scan_compressed_err_stable :
    ∀ (l : List (Option UnzipPage)) (pages : List (Option UnzipPage))
      (ov : Bool) (sp : Nat)
      (out : List (Option UnzipPage) × Int × Bool × Nat),
      z_erofs_vle_unzip_scan_compressed l pages (-eio) ov sp = some out →
      out.2.1 = -eio := by
  intro l
  induction l with
  | nil =>
    intro pages ov sp out hrun
    simp only [z_erofs_vle_unzip_scan_compressed] at hrun
    cases hrun
    rfl
  | cons s rest ih =>
    intro pages ov sp out hrun
    match s with
    | none => simp [z_erofs_vle_unzip_scan_compressed] at hrun
    | some page =>
      rw [z_erofs_vle_unzip_scan_compressed] at hrun
      cases hk : page.kind with
      | staging =>
        rw [hk] at hrun
        exact ih _ _ _ _ hrun
      | managed uptodate =>
        rw [hk] at hrun
        cases uptodate with
        | true => exact ih _ _ _ _ (by simpa using hrun)
        | false => exact ih _ _ _ _ (by simpa using hrun)
      | online i =>
        rw [hk] at hrun
        cases hget : pages.get? (z_erofs_onlinepage_index page) with
        | none => rw [hget] at hrun; cases hrun
        | some w =>
          cases w with
          | none =>
            rw [hget] at hrun
            exact ih _ _ _ _ hrun
          | some q => rw [hget] at hrun; cases hrun

/-- If some compressed slot holds a managed-cache page that is not up to
date, a completed scan reports err = -EIO whatever it started from. -/
theorem z_erofs_vle_unzip_scan_compressed_err_bad :
    ∀ (l : List (Option UnzipPage)) (pages : List (Option UnzipPage))
      (e : Int) (ov : Bool) (sp : Nat)
      (out : List (Option UnzipPage) × Int × Bool × Nat) (p : UnzipPage),
      (some p) ∈ l → p.kind = PageMappingKind.managed false →
      z_erofs_vle_unzip_scan_compressed l pages e ov sp = some out →
      out.2.1 = -eio := by
  intro l
  induction l with
  | nil =>
    intro pages e ov sp out p hp
    simp at hp
  | cons s rest ih =>
    intro pages e ov sp out p hp hk hrun
    rcases List.mem_cons.mp hp with hh | hh
    · rw [← hh] at hrun
      rw [z_erofs_vle_unzip_scan_compressed, hk] at hrun
      exact z_erofs_vle_unzip_scan_compressed_err_stable _ _ _ _ _
        (by simpa using hrun)
    · match s with
      | none => simp [z_erofs_vle_unzip_scan_compressed] at hrun
      | some page =>
        rw [z_erofs_vle_unzip_scan_compressed] at hrun
        cases hk2 : page.kind with
        | staging =>
          rw [hk2] at hrun
          exact ih _ _ _ _ _ p hh hk hrun
        | managed uptodate =>
          rw [hk2] at hrun
          exact ih _ _ _ _ _ p hh hk hrun
        | online i =>
          rw [hk2] at hrun
          cases hget : pages.get? (z_erofs_onlinepage_index page) with
          | none => rw [hget] at hrun; cases hrun
          | some w =>
            cases w with
            | none =>
              rw [hget] at hrun
              exact ih _ _ _ _ _ p hh hk hrun
            | some q => rw [hget] at hrun; cases hrun

/-- The compressed-slot scan never evicts an occupied destination slot. -/
theorem z_erofs_vle_unzip_scan_compressed_preserves :
    ∀ (l : List (Option UnzipPage)) (pages : List (Option UnzipPage))
      (e : Int) (ov : Bool) (sp : Nat)
      (out : List (Option UnzipPage) × Int × Bool × Nat) (p : UnzipPage),
      z_erofs_vle_unzip_scan_compressed l pages e ov sp = some out →
      (some p) ∈ pages → (some p) ∈ out.1 := by
  intro l
  induction l with
  | nil =>
    intro pages e ov sp out p hrun hp
    simp only [z_erofs_vle_unzip_scan_compressed] at hrun
    cases hrun
    exact hp
  | cons s rest ih =>
    intro pages e ov sp out p hrun hp
    match s with
    | none => simp [z_erofs_vle_unzip_scan_compressed] at hrun
    | some page =>
      rw [z_erofs_vle_unzip_scan_compressed] at hrun
      cases hk2 : page.kind with
      | staging =>
        rw [hk2] at hrun
        exact ih _ _ _ _ _ p hrun hp
      | managed uptodate =>
        rw [hk2] at hrun
        exact ih _ _ _ _ _ p hrun hp
      | online i =>
        rw [hk2] at hrun
        cases hget : pages.get? (z_erofs_onlinepage_index page) with
        | none => rw [hget] at hrun; cases hrun
        | some w =>
          cases w with
          | none =>
            rw [hget] at hrun
            exact ih _ _ _ _ _ p hrun (mem_set_of_get?_none _ _ _ _ hp hget)
          | some q => rw [hget] at hrun; cases hrun

/-- Every compressed page reused in place as a destination page (an online
page among the compressed slots) is in the destination array when the scan
completes. -/
theorem z_erofs_vle_unzip_scan_compressed_inserts :
    ∀ (l : List (Option UnzipPage)) (pages : List (Option UnzipPage))
      (e : Int) (ov : Bool) (sp : Nat)
      (out : List (Option UnzipPage) × Int × Bool × Nat) (p : UnzipPage)
      (i : Nat),
      z_erofs_vle_unzip_scan_compressed l pages e ov sp = some out →
      (some p) ∈ l → p.kind = PageMappingKind.online i →
      (some p) ∈ out.1 := by
  intro l
  induction l with
  | nil =>
    intro pages e ov sp out p i hrun hp
    simp at hp
  | cons s rest ih =>
    intro pages e ov sp out p i hrun hp hk
    rcases List.mem_cons.mp hp with hh | hh
    · rw [← hh, z_erofs_vle_unzip_scan_compressed, hk] at hrun
      cases hget : pages.get? (z_erofs_onlinepage_index p) with
      | none => rw [hget] at hrun; cases hrun
      | some w =>
        cases w with
        | none =>
          rw [hget] at hrun
          exact z_erofs_vle_unzip_scan_compressed_preserves _ _ _ _ _ _ p hrun
            (mem_set_self_of_get? _ _ _ _ hget)
        | some q => rw [hget] at hrun; cases hrun
    · match s with
      | none => simp [z_erofs_vle_unzip_scan_compressed] at hrun
      | some page =>
        rw [z_erofs_vle_unzip_scan_compressed] at hrun
        cases hk2 : page.kind with
        | staging =>
          rw [hk2] at hrun
          exact ih _ _ _ _ _ p i hrun hh hk
        | managed uptodate =>
          rw [hk2] at hrun
          exact ih _ _ _ _ _ p i hrun hh hk
        | online j =>
          rw [hk2] at hrun
          cases hget : pages.get? (z_erofs_onlinepage_index page) with
          | none => rw [hget] at hrun; cases hrun
          | some w =>
            cases w with
            | none =>
              rw [hget] at hrun
              exact ih _ _ _ _ _ p i hrun hh hk
            | some q => rw [hget] at hrun; cases hrun

/-- What the cleanup loop leaves in one compressed slot: managed-cache
pages stay, everything else is cleared. -/
def unzip_slot_cleanup (s : Option UnzipPage) : Option UnzipPage :=
  match s with
  | some p =>
    match p.kind with
    | PageMappingKind.managed _ => some p
    | _ => none
  | none => none

theorem z_erofs_vle_unzip_cleanup_compressed_fst :
    ∀ l : List (Option UnzipPage),
      (z_erofs_vle_unzip_cleanup_compressed l).1 =
        l.map unzip_slot_cleanup := by
  intro l
  induction l with
  | nil => rfl
  | cons s rest ih =>
    match s with
    | none =>
      simp [z_erofs_vle_unzip_cleanup_compressed, unzip_slot_cleanup, ih]
    | some p =>
      cases hk : p.kind <;>
        simp [z_erofs_vle_unzip_cleanup_compressed, unzip_slot_cleanup, hk,
          ih]

/-- Every page the finalize loop reports carries exactly the error flag of
the pass. -/
theorem z_erofs_vle_unzip_finalize_pages_flag :
    ∀ (err : Int) (l : List (Option UnzipPage)) (x : Nat × Bool),
      x ∈ (z_erofs_vle_unzip_finalize_pages err l).2 →
      x.2 = decide (err < 0) := by
  intro err l
  induction l with
  | nil => intro x hx; simp [z_erofs_vle_unzip_finalize_pages] at hx
  | cons s rest ih =>
    intro x hx
    match s with
    | none =>
      rw [z_erofs_vle_unzip_finalize_pages] at hx
      exact ih x hx
    | some p =>
      by_cases hst : p.kind = PageMappingKind.staging
      · rw [z_erofs_vle_unzip_finalize_pages, if_pos hst] at hx
        exact ih x hx
      · rw [z_erofs_vle_unzip_finalize_pages, if_neg hst] at hx
        rcases List.mem_cons.mp hx with hh | hh
        · rw [hh]
        · exact ih x hh

/-- Every non-staging page in the destination array is finalized. -/
theorem z_erofs_vle_unzip_finalize_pages_mem :
    ∀ (err : Int) (l : List (Option UnzipPage)) (p : UnzipPage),
      (some p) ∈ l → p.kind ≠ PageMappingKind.staging →
      (p.id, decide (err < 0)) ∈
        (z_erofs_vle_unzip_finalize_pages err l).2 := by
  intro err l
  induction l with
  | nil => intro p hp; simp at hp
  | cons s rest ih =>
    intro p hp hns
    rcases List.mem_cons.mp hp with hh | hh
    · rw [← hh, z_erofs_vle_unzip_finalize_pages, if_neg hns]
      exact List.mem_cons_self _ _
    · match s with
      | none =>
        rw [z_erofs_vle_unzip_finalize_pages]
        exact ih p hh hns
      | some q =>
        by_cases hst : q.kind = PageMappingKind.staging
        · rw [z_erofs_vle_unzip_finalize_pages, if_pos hst]
          exact ih p hh hns
        · rw [z_erofs_vle_unzip_finalize_pages, if_neg hst]
          exact List.mem_cons_of_mem _ (ih p hh hns)

/-- Claim C8 (amended): when some compressed input page of a decompression
pass carries an I/O failure (a cache-managed page not marked up to date),
z_erofs_vle_unzip returns -EIO without invoking the plain-copy path or
either decompressor, and it still visits every compressed slot — clearing
and releasing each one except the cache-managed pages, which remain in the
cache and keep their slots — and finalizes every destination page (both
the pagevec pages and the compressed pages reused in place) with the
error flag set. -/
theorem claim_C8_unzip_error_short_circuit_amended
    (clusterpages : Nat) (grp : z_erofs_vle_workgroup)
    (work : z_erofs_vle_work) (err_plain_copy err_fast err_vmap : Int)
    (vmap_ok : Bool) (fresh_staging : Nat → Nat) (r : UnzipResult)
    (pbad : UnzipPage)
    (hbad_mem : (some pbad) ∈ grp.compressed_pages.take clusterpages)
    (hbad_kind : pbad.kind = PageMappingKind.managed false)
    (hrun : z_erofs_vle_unzip clusterpages grp work err_plain_copy err_fast
        err_vmap vmap_ok fresh_staging = UnzipOut.res r) :
    r.err = -eio ∧
    r.invoked_plain_copy = false ∧
    r.invoked_fast = false ∧
    r.invoked_vmap = false ∧
    r.compressed_slots =
      (grp.compressed_pages.take clusterpages).map unzip_slot_cleanup ∧
    (∀ x ∈ r.finalized, x.2 = true) ∧
    (∀ pe ∈ work.pagevec.take work.vcnt,
      pe.1.kind ≠ PageMappingKind.staging → (pe.1.id, true) ∈ r.finalized) ∧
    (∀ (p : UnzipPage) (i : Nat),
      (some p) ∈ grp.compressed_pages.take clusterpages →
      p.kind = PageMappingKind.online i → (p.id, true) ∈ r.finalized) := by
  rw [z_erofs_vle_unzip] at hrun
  by_cases hnr : work.nr_pages = 0
  · rw [if_pos hnr] at hrun; cases hrun
  rw [if_neg hnr] at hrun
  cases hg : z_erofs_vle_unzip_gather_pagevec (work.pagevec.take work.vcnt)
      (List.replicate work.nr_pages none) [] with
  | none => rw [hg] at hrun; cases hrun
  | some out1 =>
    obtain ⟨pages1, recycled1⟩ := out1
    rw [hg] at hrun
    simp only [] at hrun
    cases hs : z_erofs_vle_unzip_scan_compressed
        (grp.compressed_pages.take clusterpages) pages1 0 false work.vcnt with
    | none => rw [hs] at hrun; cases hrun
    | some out2 =>
      obtain ⟨pages2, err2, ov2, sp2⟩ := out2
      rw [hs] at hrun
      simp only [] at hrun
      have herr : err2 = -eio := by
        simpa using z_erofs_vle_unzip_scan_compressed_err_bad _ _ _ _ _ _
          pbad hbad_mem hbad_kind hs
      subst herr
      rw [if_pos (by decide : ¬ (-eio : Int) = 0)] at hrun
      rw [z_erofs_vle_unzip_out] at hrun
      cases hrun
      have hflag : decide ((-eio : Int) < 0) = true := by decide
      refine ⟨rfl, rfl, rfl, rfl, ?_, ?_, ?_, ?_⟩
      · exact z_erofs_vle_unzip_cleanup_compressed_fst _
      · intro x hx
        simpa using z_erofs_vle_unzip_finalize_pages_flag (-eio) pages2 x hx
      · intro pe hpe hns
        have h1 : (some pe.1) ∈ pages1 :=
          z_erofs_vle_unzip_gather_pagevec_inserts _ _ _ _ pe.1 pe.2 hg
            (by simpa using hpe) hns
        have h2 : (some pe.1) ∈ pages2 :=
          z_erofs_vle_unzip_scan_compressed_preserves _ _ _ _ _ _ pe.1 hs h1
        have h3 := z_erofs_vle_unzip_finalize_pages_mem (-eio) pages2 pe.1
          h2 hns
        rw [hflag] at h3
        exact h3
      · intro p i hp hk
        have h2 : (some p) ∈ pages2 :=
          z_erofs_vle_unzip_scan_compressed_inserts _ _ _ _ _ _ p i hs hp hk
        have h3 := z_erofs_vle_unzip_finalize_pages_mem (-eio) pages2 p h2
          (by rw [hk]; exact fun hc => PageMappingKind.noConfusion hc)
        rw [hflag] at h3
        exact h3

/-- Workgroup for the C8 counterexample and witness: two cache-managed
compressed pages, the second one not up to date (a failed read). -/
def c8grp : z_erofs_vle_workgroup :=
  { index := 0, llen := 4096, fmt := WorkgrpFmt.lz4,
    next := z_erofs_vle_owned_workgrp_t.tail_closed, refcount := 1,
    compressed_pages := [some ⟨1, PageMappingKind.managed true⟩,
      some ⟨2, PageMappingKind.managed false⟩] }

/-- Work for the C8 counterexample and witness: one destination page. -/
def c8work : z_erofs_vle_work :=
  { pageofs := 0, nr_pages := 1, vcnt := 1,
    pagevec := [(⟨10, PageMappingKind.online 0⟩,
      z_erofs_page_type.exclusive)] }

/-- The outcome of the concrete C8 run. -/
def c8res : UnzipResult :=
  { err := -5, invoked_plain_copy := false, invoked_fast := false,
    invoked_vmap := false,
    compressed_slots := [some ⟨1, PageMappingKind.managed true⟩,
      some ⟨2, PageMappingKind.managed false⟩],
    recycled := [], finalized := [(10, true)] }

/-- Claim C8 counterexample: with a not-up-to-date cache-managed input the
pass returns -EIO without invoking any decompressor, but the two
cache-managed compressed slots are NOT cleared or released — they keep
their pages — so the claim that every compressed slot is cleared and
released fails. -/
theorem claim_C8_counterexample :
    (some (UnzipPage.mk 2 (PageMappingKind.managed false))) ∈
      c8grp.compressed_pages.take 2 ∧
    z_erofs_vle_unzip 2 c8grp c8work 7 (-enotsupp) 0 true
        (fun k => 100 + k) = UnzipOut.res c8res ∧
    c8res.compressed_slots ≠ [none, none] := by
  refine ⟨by decide, ?_, by decide⟩
  decide

theorem claim_C8_witness :
    c8res.err = -eio ∧
    c8res.invoked_plain_copy = false ∧
    c8res.invoked_fast = false ∧
    c8res.invoked_vmap = false ∧
    c8res.compressed_slots =
      (c8grp.compressed_pages.take 2).map unzip_slot_cleanup ∧
    (∀ x ∈ c8res.finalized, x.2 = true) ∧
    (∀ pe ∈ c8work.pagevec.take c8work.vcnt,
      pe.1.kind ≠ PageMappingKind.staging → (pe.1.id, true) ∈
        c8res.finalized) ∧
    (∀ (p : UnzipPage) (i : Nat),
      (some p) ∈ c8grp.compressed_pages.take 2 →
      p.kind = PageMappingKind.online i → (p.id, true) ∈ c8res.finalized) :=
  claim_C8_unzip_error_short_circuit_amended 2 c8grp c8work 7 (-enotsupp) 0
    true (fun k => 100 + k) c8res ⟨2, PageMappingKind.managed false⟩
    (by decide) rfl (by decide)
